import Mathlib

/-!
Verification of the interactive 3D scene editor's gesture, alignment and
view-cube logic.  Positions, rotations and quaternions are embedded with
exact rational coordinates; each definition mirrors one function or
callback of the TypeScript source (`BuildingModel.tsx`, `ViewCube.tsx`,
the controls panel and their variants).
-/

namespace Scene

/-- A 3D vector with exact rational coordinates (embedding of
`THREE.Vector3` and of the `[x, y, z]` position/rotation triples). -/
structure V3 where
  x : ℚ
  y : ℚ
  z : ℚ
deriving DecidableEq

/-! ## Drag controller (`BuildingModel.tsx`, `useGesture` handlers)

The primary variant (`src/components/BuildingModel.tsx`, delta-based,
`moveSpeed = 0.008`) and the movement-based variant
(`src/unnamed/part_002`, `moveSpeed = 0.05`).  Both clamp X and Z to the
6×6 ground grid and keep Y fixed; both act only when `touches === 1`. -/

/-- `GRID_SIZE = 6` from the `onDrag` handler. -/
def GRID_SIZE : ℚ := 6

/-- `BOUNDARY_MIN = -GRID_SIZE / 2`. -/
def BOUNDARY_MIN : ℚ := -GRID_SIZE / 2

/-- `BOUNDARY_MAX = GRID_SIZE / 2`. -/
def BOUNDARY_MAX : ℚ := GRID_SIZE / 2

/-- `Math.max(BOUNDARY_MIN, Math.min(BOUNDARY_MAX, v))`, the componentwise
ground clamp used on the X and Z coordinates. -/
def boundaryClamp (v : ℚ) : ℚ := max BOUNDARY_MIN (min BOUNDARY_MAX v)

/-- `moveSpeed = 0.008` in the delta-based `onDrag` of `BuildingModel.tsx`. -/
def moveSpeed : ℚ := 1/125

/-- The position update of the delta-based `onDrag`
(`BuildingModel.tsx` lines 298-321): `newX`/`newZ` are the previous
coordinates plus the screen delta scaled by `moveSpeed`, clamped to the
ground boundary; Y is passed through unchanged. -/
def dragMove (pos : V3) (deltaX deltaY : ℚ) : V3 :=
  { x := boundaryClamp (pos.x + deltaX * moveSpeed)
    y := pos.y
    z := boundaryClamp (pos.z + deltaY * moveSpeed) }

/-- The full `onDrag` callback of `BuildingModel.tsx`: acts only when
`touches === 1 && data.selected`; on the first event it just records the
pointer position; afterwards it computes the delta from the last pointer
position and emits a `dragMove` update.  The result is the emitted
position update (if any) paired with the new `lastPointerPosRef` value. -/
def onDrag (touches : ℕ) (selected : Bool) (lastPointerPos : Option (ℚ × ℚ))
    (xy : ℚ × ℚ) (pos : V3) : Option V3 × Option (ℚ × ℚ) :=
  if touches = 1 ∧ selected = true then
    match lastPointerPos with
    | none => (none, some xy)
    | some lp => (some (dragMove pos (xy.1 - lp.1) (xy.2 - lp.2)), some xy)
  else (none, lastPointerPos)

/-- `moveSpeed = 0.05` in the movement-based `onDrag` of
`src/unnamed/part_002`. -/
def moveSpeedMovement : ℚ := 1/20

/-- The movement-based `onDrag` of `src/unnamed/part_002`: acts only when
`touches === 1` and the model is selected; computes the new position from
the initial position of the gesture plus the total movement scaled by
`moveSpeed`, X and Z clamped, Y fixed.  Returns the emitted update, if
any. -/
def onDragMovement (touches : ℕ) (selected : Bool) (initialPos : V3)
    (mx my : ℚ) : Option V3 :=
  if touches = 1 then
    if selected = true then
      some { x := boundaryClamp (initialPos.x + mx * moveSpeedMovement)
             y := initialPos.y
             z := boundaryClamp (initialPos.z + my * moveSpeedMovement) }
    else none
  else none

/-- Folding a sequence of per-event screen deltas through `dragMove`. -/
def dragMoveSeq (pos : V3) (moves : List (ℚ × ℚ)) : V3 :=
  moves.foldl (fun p d => dragMove p d.1 d.2) pos

lemma boundaryClamp_le (v : ℚ) :
    BOUNDARY_MIN ≤ boundaryClamp v ∧ boundaryClamp v ≤ BOUNDARY_MAX := by
  unfold boundaryClamp BOUNDARY_MIN BOUNDARY_MAX GRID_SIZE
  constructor
  · exact le_max_left _ _
  · exact max_le (by norm_num) (min_le_left _ _)

lemma boundaryClamp_of_mem {v : ℚ} (h1 : BOUNDARY_MIN ≤ v)
    (h2 : v ≤ BOUNDARY_MAX) : boundaryClamp v = v := by
  unfold boundaryClamp
  rw [min_eq_right h2, max_eq_right h1]

lemma dragMove_y (pos : V3) (dx dy : ℚ) : (dragMove pos dx dy).y = pos.y := rfl

lemma dragMove_bounds (pos : V3) (dx dy : ℚ) :
    (BOUNDARY_MIN ≤ (dragMove pos dx dy).x ∧ (dragMove pos dx dy).x ≤ BOUNDARY_MAX)
    ∧ (BOUNDARY_MIN ≤ (dragMove pos dx dy).z ∧ (dragMove pos dx dy).z ≤ BOUNDARY_MAX) :=
  ⟨boundaryClamp_le _, boundaryClamp_le _⟩

lemma dragMoveSeq_bounds (moves : List (ℚ × ℚ)) (pos : V3) (d : ℚ × ℚ) :
    (BOUNDARY_MIN ≤ (dragMoveSeq (dragMove pos d.1 d.2) moves).x
      ∧ (dragMoveSeq (dragMove pos d.1 d.2) moves).x ≤ BOUNDARY_MAX)
    ∧ (BOUNDARY_MIN ≤ (dragMoveSeq (dragMove pos d.1 d.2) moves).z
      ∧ (dragMoveSeq (dragMove pos d.1 d.2) moves).z ≤ BOUNDARY_MAX) := by
  induction moves generalizing pos d with
  | nil => exact dragMove_bounds pos d.1 d.2
  | cons e es ih =>
      simpa [dragMoveSeq, List.foldl] using ih (dragMove pos d.1 d.2) e

/-- C1: a single-finger drag update keeps `position.y` exactly equal to its
previous value and clamps the new `position.x`/`position.z` componentwise
into `[-B/2, B/2]` with `B = GRID_SIZE = 6`; the clamp is idempotent on
in-bounds coordinates, and after any nonempty sequence of drag moves the
final X and Z lie within `[-3, 3]` regardless of cumulative input
magnitude. -/
theorem C1_drag_clamped_y_fixed (pos : V3) (dx dy : ℚ) :
    (dragMove pos dx dy).y = pos.y
    ∧ (-3 ≤ (dragMove pos dx dy).x ∧ (dragMove pos dx dy).x ≤ 3)
    ∧ (-3 ≤ (dragMove pos dx dy).z ∧ (dragMove pos dx dy).z ≤ 3)
    ∧ (∀ v : ℚ, -3 ≤ v → v ≤ 3 → boundaryClamp v = v)
    ∧ (∀ (d : ℚ × ℚ) (moves : List (ℚ × ℚ)),
        (-3 ≤ (dragMoveSeq (dragMove pos d.1 d.2) moves).x
          ∧ (dragMoveSeq (dragMove pos d.1 d.2) moves).x ≤ 3)
        ∧ (-3 ≤ (dragMoveSeq (dragMove pos d.1 d.2) moves).z
          ∧ (dragMoveSeq (dragMove pos d.1 d.2) moves).z ≤ 3)) := by
  have hmin : BOUNDARY_MIN = -3 := by norm_num [BOUNDARY_MIN, GRID_SIZE]
  have hmax : BOUNDARY_MAX = 3 := by norm_num [BOUNDARY_MAX, GRID_SIZE]
  refine ⟨dragMove_y pos dx dy, ?_, ?_, ?_, ?_⟩
  · have h := (dragMove_bounds pos dx dy).1
    rw [hmin, hmax] at h; exact h
  · have h := (dragMove_bounds pos dx dy).2
    rw [hmin, hmax] at h; exact h
  · intro v h1 h2
    exact boundaryClamp_of_mem (by rw [hmin]; exact h1) (by rw [hmax]; exact h2)
  · intro d moves
    have h := dragMoveSeq_bounds moves pos d
    rw [hmin, hmax] at h; exact h

/-- Witness for C1 at the concrete position `(0, 1, 0)` and screen delta
`(500, -9000)`: the clamp idempotence hypothesis and the sequence bound
are discharged at concrete inputs. -/
theorem C1_drag_clamped_y_fixed_witness :
    (dragMove ⟨0, 1, 0⟩ 500 (-9000)).y = 1
    ∧ boundaryClamp (1/2) = 1/2
    ∧ (-3 ≤ (dragMoveSeq (dragMove ⟨0, 1, 0⟩ 500 (-9000)) [(7, -7)]).x
        ∧ (dragMoveSeq (dragMove ⟨0, 1, 0⟩ 500 (-9000)) [(7, -7)]).x ≤ 3) := by
  have h := C1_drag_clamped_y_fixed ⟨0, 1, 0⟩ 500 (-9000)
  exact ⟨h.1, h.2.2.2.1 (1/2) (by norm_num) (by norm_num),
    (h.2.2.2.2 (500, -9000) [(7, -7)]).1⟩

/-! ## Camera-relative mapping claimed by the spec (C2)

The spec describes the single-finger move as a projection of the screen
delta onto the camera's right/up vectors flattened to the XZ plane, with
a zoom-dependent multiplier.  No such code exists in the repository: both
`onDrag` variants use a fixed screen-axis mapping and never read the
camera.  The claimed mapping is therefore modelled from the spec's words
for comparison. -/

/-- Modelled from the spec (§4.1): the screen delta `(dx, dy)` is
projected onto the camera's right/up vectors flattened to the XZ ground
plane (taken here already renormalized, so they have `y = 0` and unit
length); the resulting world delta is scaled by a speed constant times a
camera-distance multiplier clamped to `[1/2, 2]`; Y is untouched. -/
def specCameraRelativeMove (rightFlat upFlat : V3) (speed mult : ℚ)
    (pos : V3) (dx dy : ℚ) : V3 :=
  let m := max (1/2) (min 2 mult)
  { x := pos.x + (dx * rightFlat.x + dy * upFlat.x) * speed * m
    y := pos.y
    z := pos.z + (dx * rightFlat.z + dy * upFlat.z) * speed * m }

/-- For a camera whose flattened right vector is `(0, 0, -1)` (camera on
the raised +X axis looking at the origin), the claimed camera-relative
move of a purely horizontal screen delta never changes `x`, for every
speed constant and multiplier. -/
lemma specCameraRelativeMove_x_fixed (s m dx : ℚ) (p : V3) :
    (specCameraRelativeMove ⟨0, 0, -1⟩ ⟨-1, 0, 0⟩ s m p dx 0).x = p.x := by
  simp [specCameraRelativeMove]

/-- C2 counterexample: for the camera placed at `(a, a, 0)` looking at the
origin — flattened right vector `(0, 0, -1)`, flattened up vector
`(-1, 0, 0)` — the claim predicts that a horizontal screen delta `(1, 0)`
moves the model along world −Z and leaves X unchanged, for any admissible
speed and multiplier (shown here at speed `1/125`, multiplier `1`).  The
code's `onDrag` instead always moves along world +X and never changes Z:
it ignores the camera entirely. -/
theorem C2_counterexample_camera_ignored :
    (dragMove ⟨0, 0, 0⟩ 1 0).x = 1/125
    ∧ (dragMove ⟨0, 0, 0⟩ 1 0).z = 0
    ∧ (specCameraRelativeMove ⟨0, 0, -1⟩ ⟨-1, 0, 0⟩ (1/125) 1 ⟨0, 0, 0⟩ 1 0).x = 0
    ∧ (specCameraRelativeMove ⟨0, 0, -1⟩ ⟨-1, 0, 0⟩ (1/125) 1 ⟨0, 0, 0⟩ 1 0).z = -(1/125)
    ∧ dragMove ⟨0, 0, 0⟩ 1 0
        ≠ specCameraRelativeMove ⟨0, 0, -1⟩ ⟨-1, 0, 0⟩ (1/125) 1 ⟨0, 0, 0⟩ 1 0 := by
  refine ⟨?_, ?_, ?_, ?_, ?_⟩ <;>
    norm_num [dragMove, specCameraRelativeMove, boundaryClamp, moveSpeed,
      BOUNDARY_MIN, BOUNDARY_MAX, GRID_SIZE, V3.mk.injEq]

/-- C2 amended: both drag variants apply a fixed, camera-independent
screen-axis mapping — horizontal screen delta to world X and vertical
screen delta to world +Z — scaled by a constant sensitivity (`0.008`
per-event delta in `BuildingModel.tsx`, `0.05` total movement in the
variant), with X/Z clamped and Y untouched; whenever the unclamped target
stays in bounds the applied world delta is exactly the screen delta times
the constant. -/
theorem C2_amended_fixed_axis_mapping (pos : V3) (dx dy : ℚ)
    (initialPos : V3) (mx my : ℚ) :
    dragMove pos dx dy =
      ⟨boundaryClamp (pos.x + dx * (1/125)), pos.y, boundaryClamp (pos.z + dy * (1/125))⟩
    ∧ onDragMovement 1 true initialPos mx my =
        some ⟨boundaryClamp (initialPos.x + mx * (1/20)), initialPos.y,
          boundaryClamp (initialPos.z + my * (1/20))⟩
    ∧ (-3 ≤ pos.x + dx * (1/125) → pos.x + dx * (1/125) ≤ 3 →
        (dragMove pos dx dy).x - pos.x = dx * (1/125))
    ∧ (-3 ≤ pos.z + dy * (1/125) → pos.z + dy * (1/125) ≤ 3 →
        (dragMove pos dx dy).z - pos.z = dy * (1/125)) := by
  have hmin : BOUNDARY_MIN = -3 := by norm_num [BOUNDARY_MIN, GRID_SIZE]
  have hmax : BOUNDARY_MAX = 3 := by norm_num [BOUNDARY_MAX, GRID_SIZE]
  refine ⟨rfl, rfl, ?_, ?_⟩
  · intro h1 h2
    have : (dragMove pos dx dy).x = pos.x + dx * (1/125) := by
      show boundaryClamp (pos.x + dx * moveSpeed) = _
      rw [show moveSpeed = 1/125 from rfl]
      exact boundaryClamp_of_mem (by rw [hmin]; exact h1) (by rw [hmax]; exact h2)
    rw [this]; ring
  · intro h1 h2
    have : (dragMove pos dx dy).z = pos.z + dy * (1/125) := by
      show boundaryClamp (pos.z + dy * moveSpeed) = _
      rw [show moveSpeed = 1/125 from rfl]
      exact boundaryClamp_of_mem (by rw [hmin]; exact h1) (by rw [hmax]; exact h2)
    rw [this]; ring

/-- Witness for C2's amended theorem at concrete in-bounds inputs. -/
theorem C2_amended_fixed_axis_mapping_witness :
    (-3 ≤ (0 : ℚ) + 125 * (1/125) ∧ (0 : ℚ) + 125 * (1/125) ≤ 3)
    ∧ (dragMove ⟨0, 1, 0⟩ 125 250).x - 0 = 125 * (1/125)
    ∧ (dragMove ⟨0, 1, 0⟩ 125 250).z - 0 = 250 * (1/125) := by
  have h := C2_amended_fixed_axis_mapping ⟨0, 1, 0⟩ 125 250 ⟨0, 1, 0⟩ 0 0
  exact ⟨⟨by norm_num, by norm_num⟩,
    h.2.2.1 (by norm_num) (by norm_num),
    h.2.2.2 (by norm_num) (by norm_num)⟩

/-! ## Two-finger drags (C3)

Both `useGesture` drag handlers act only when `touches === 1`; drags with
two contact points emit no model update at all and are left to propagate
to the ambient orbit-camera control. -/

/-- C3 counterexample: a drag with exactly two contact points on a
selected model emits no position update in either handler variant — in
particular it never changes `position.y`, contradicting the claimed
full-3D lift/lower mode. -/
theorem C3_counterexample_two_finger_ignored :
    (onDrag 2 true (some (0, 0)) (100, 50) ⟨0, 1, 0⟩).1 = none
    ∧ onDragMovement 2 true ⟨0, 1, 0⟩ 100 50 = none := by
  constructor <;> rfl

/-- C3 amended: drags with a contact-point count other than one are
ignored by the model drag controller — no position update is emitted and
the stored last pointer position is left unchanged — so a two-finger
gesture can never move the model (it falls through to the orbit-camera
control); `position.y` can only change through the height controls. -/
theorem C3_amended_multitouch_ignored (touches : ℕ) (selected : Bool)
    (lastPointerPos : Option (ℚ × ℚ)) (xy : ℚ × ℚ) (pos : V3) (mx my : ℚ)
    (h : touches ≠ 1) :
    (onDrag touches selected lastPointerPos xy pos).1 = none
    ∧ (onDrag touches selected lastPointerPos xy pos).2 = lastPointerPos
    ∧ onDragMovement touches selected pos mx my = none := by
  unfold onDrag onDragMovement
  rw [if_neg (by simp [h]), if_neg h]
  exact ⟨rfl, rfl, rfl⟩

/-- Witness for C3's amended theorem at `touches = 2`. -/
theorem C3_amended_multitouch_ignored_witness :
    (2 : ℕ) ≠ 1
    ∧ (onDrag 2 true (some (3, 4)) (10, 20) ⟨1, 1, 1⟩).1 = none
    ∧ onDragMovement 2 true ⟨1, 1, 1⟩ 10 20 = none := by
  have h := C3_amended_multitouch_ignored 2 true (some (3, 4)) (10, 20)
    ⟨1, 1, 1⟩ 10 20 (by norm_num)
  exact ⟨by norm_num, h.1, h.2.2⟩

/-! ## Composite model alignment (`BuildingModelContent` effect)

The alignment effect zeroes each clone's transform, computes axis-aligned
bounding boxes, and derives the ground offset, the rectangular part's
horizontal/vertical offsets and the rotation pivot.  The computation is a
pure function of the three bounding boxes. -/

/-- Axis-aligned bounding box (embedding of `THREE.Box3`). -/
structure Box3 where
  min : V3
  max : V3
deriving DecidableEq

/-- The four outputs of the alignment effect (`setModelOffset`,
`setRectangularPartOffset`, `setOtherPartOffset`, `setRotationCenter`). -/
structure AlignmentResult where
  modelOffset : V3
  rectangularPartOffset : V3
  otherPartOffset : V3
  rotationCenter : V3
deriving DecidableEq

/-- The alignment effect of `BuildingModelContent` (lines 149-202 of
`BuildingModel.tsx`), as a function of the bounding boxes computed after
zeroing each part's transform: `offsetY = -fullBox.min.y`,
`horizontalOffset = otherBox.max.x - rectBox.min.x`,
`verticalOffset = -(rectBox.max.y - rectBox.min.y) / 6`, the other part
stays in place, and the rotation center is the rectangular part's box
center with the offsets applied. -/
def computeAlignment (fullBox rectBox otherBox : Box3) : AlignmentResult :=
  let offsetY := -fullBox.min.y
  let rectHeight := rectBox.max.y - rectBox.min.y
  let otherRightEdge := otherBox.max.x
  let rectLeftEdge := rectBox.min.x
  let horizontalOffset := otherRightEdge - rectLeftEdge
  let verticalOffset := -rectHeight / 6
  { modelOffset := ⟨0, offsetY, 0⟩
    rectangularPartOffset := ⟨horizontalOffset, verticalOffset, 0⟩
    otherPartOffset := ⟨0, 0, 0⟩
    rotationCenter := ⟨(rectBox.min.x + rectBox.max.x) / 2 + horizontalOffset,
                       (rectBox.min.y + rectBox.max.y) / 2 + offsetY + verticalOffset,
                       (rectBox.min.z + rectBox.max.z) / 2⟩ }

/-- C4: given the bounding boxes computed after zeroing each part's
transform, the horizontal offset of the rectangular part equals
`otherBox.max.x - rectBox.min.x`, its vertical nudge equals
`-(rectBox.max.y - rectBox.min.y) / 6`, the ground offset's Y equals
`-fullBox.min.y`, and the whole computation is deterministic: identical
input boxes always produce identical offsets. -/
theorem C4_alignment_offsets (fullBox rectBox otherBox : Box3) :
    (computeAlignment fullBox rectBox otherBox).rectangularPartOffset.x
      = otherBox.max.x - rectBox.min.x
    ∧ (computeAlignment fullBox rectBox otherBox).rectangularPartOffset.y
      = -(rectBox.max.y - rectBox.min.y) / 6
    ∧ (computeAlignment fullBox rectBox otherBox).modelOffset.y
      = -fullBox.min.y
    ∧ (∀ f r o : Box3, f = fullBox → r = rectBox → o = otherBox →
        computeAlignment f r o = computeAlignment fullBox rectBox otherBox) := by
  refine ⟨rfl, rfl, rfl, ?_⟩
  intro f r o hf hr ho
  rw [hf, hr, ho]

/-- Witness for C4 at concrete bounding boxes. -/
theorem C4_alignment_offsets_witness :
    (computeAlignment ⟨⟨-2, -1, -2⟩, ⟨2, 5, 2⟩⟩ ⟨⟨0, 0, -1⟩, ⟨2, 3, 1⟩⟩
        ⟨⟨-2, -1, -2⟩, ⟨1, 4, 2⟩⟩).rectangularPartOffset.x = 1 - 0
    ∧ (computeAlignment ⟨⟨-2, -1, -2⟩, ⟨2, 5, 2⟩⟩ ⟨⟨0, 0, -1⟩, ⟨2, 3, 1⟩⟩
        ⟨⟨-2, -1, -2⟩, ⟨1, 4, 2⟩⟩).modelOffset.y = -(-1)
    ∧ computeAlignment ⟨⟨-2, -1, -2⟩, ⟨2, 5, 2⟩⟩ ⟨⟨0, 0, -1⟩, ⟨2, 3, 1⟩⟩
        ⟨⟨-2, -1, -2⟩, ⟨1, 4, 2⟩⟩
      = computeAlignment ⟨⟨-2, -1, -2⟩, ⟨2, 5, 2⟩⟩ ⟨⟨0, 0, -1⟩, ⟨2, 3, 1⟩⟩
        ⟨⟨-2, -1, -2⟩, ⟨1, 4, 2⟩⟩ := by
  have h := C4_alignment_offsets ⟨⟨-2, -1, -2⟩, ⟨2, 5, 2⟩⟩ ⟨⟨0, 0, -1⟩, ⟨2, 3, 1⟩⟩
    ⟨⟨-2, -1, -2⟩, ⟨1, 4, 2⟩⟩
  exact ⟨h.1, h.2.2.1, h.2.2.2 _ _ _ rfl rfl rfl⟩

/-! ## Rotation animator (`useFrame` in `BuildingModelContent`)

Each frame, while `currentRotation ≠ targetRotation`, every Euler
component advances by `(target - current) * min(10 * delta, 0.3)`; when
afterwards every axis is within `0.001` of the target the state snaps
exactly to the target. -/

/-- The per-frame cap on the eased fraction (`0.3` in
`Math.min(10 * delta, 0.3)`). -/
def rotEaseCap : ℚ := 3/10

/-- The snap threshold (`0.001`). -/
def rotThreshold : ℚ := 1/1000

/-- One component-wise easing step:
`current + (target - current) * easeFactor` on each axis. -/
def advanceRotation (c t : V3) (easeFactor : ℚ) : V3 :=
  ⟨c.x + (t.x - c.x) * easeFactor,
   c.y + (t.y - c.y) * easeFactor,
   c.z + (t.z - c.z) * easeFactor⟩

/-- The `useFrame` rotation animation body (`BuildingModel.tsx`
lines 120-140): if any component of `currentRotation` differs from
`targetRotation`, ease every component with factor
`min(10 * delta, 0.3)`; if the result is within `0.001` of the target on
every axis, set the state to the target exactly, otherwise to the eased
value; if current already equals target, leave the state unchanged. -/
def stepRotation (c t : V3) (delta : ℚ) : V3 :=
  if c.x ≠ t.x ∨ c.y ≠ t.y ∨ c.z ≠ t.z then
    if |t.x - (advanceRotation c t (min (10 * delta) rotEaseCap)).x| > rotThreshold
        ∨ |t.y - (advanceRotation c t (min (10 * delta) rotEaseCap)).y| > rotThreshold
        ∨ |t.z - (advanceRotation c t (min (10 * delta) rotEaseCap)).z| > rotThreshold
    then advanceRotation c t (min (10 * delta) rotEaseCap) else t
  else c

/-- C5: on a frame tick with `current ≠ target`, each Euler component is
advanced by `(target - current) * min(10 * deltaTime, 0.3)` — the
responsiveness constant is `k = 10` and the cap fraction `0.3` — and when
the remaining difference after the step is below `0.001` on all three
axes, the animator sets current exactly equal to the target. -/
theorem C5_rotation_eased_step_and_snap (c t : V3) (delta : ℚ) :
    (c ≠ t →
      (|t.x - (advanceRotation c t (min (10 * delta) (3/10))).x| > 1/1000
        ∨ |t.y - (advanceRotation c t (min (10 * delta) (3/10))).y| > 1/1000
        ∨ |t.z - (advanceRotation c t (min (10 * delta) (3/10))).z| > 1/1000) →
      stepRotation c t delta = advanceRotation c t (min (10 * delta) (3/10)))
    ∧ ((|t.x - (advanceRotation c t (min (10 * delta) (3/10))).x| < 1/1000
        ∧ |t.y - (advanceRotation c t (min (10 * delta) (3/10))).y| < 1/1000
        ∧ |t.z - (advanceRotation c t (min (10 * delta) (3/10))).z| < 1/1000) →
      stepRotation c t delta = t) := by
  constructor
  · intro hne hfar
    have hguard : c.x ≠ t.x ∨ c.y ≠ t.y ∨ c.z ≠ t.z := by
      by_contra h
      push_neg at h
      exact hne (by cases c; cases t; simp_all)
    unfold stepRotation
    simp only [rotEaseCap, rotThreshold]
    rw [if_pos hguard, if_pos hfar]
  · intro hclose
    unfold stepRotation
    simp only [rotEaseCap, rotThreshold]
    by_cases hguard : c.x ≠ t.x ∨ c.y ≠ t.y ∨ c.z ≠ t.z
    · have hn : ¬(|t.x - (advanceRotation c t (min (10 * delta) (3/10))).x| > 1/1000
          ∨ |t.y - (advanceRotation c t (min (10 * delta) (3/10))).y| > 1/1000
          ∨ |t.z - (advanceRotation c t (min (10 * delta) (3/10))).z| > 1/1000) := by
        push_neg
        exact ⟨le_of_lt hclose.1, le_of_lt hclose.2.1, le_of_lt hclose.2.2⟩
      rw [if_pos hguard, if_neg hn]
    · rw [if_neg hguard]
      push_neg at hguard
      obtain ⟨hx, hy, hz⟩ := hguard
      cases c; cases t; simp_all

/-- Witness for C5: an animating step far from the target returns the
eased value, and a step landing within the threshold snaps exactly. -/
theorem C5_rotation_eased_step_and_snap_witness :
    ((⟨0, 0, 0⟩ : V3) ≠ ⟨1, 0, 0⟩
      ∧ stepRotation ⟨0, 0, 0⟩ ⟨1, 0, 0⟩ (1/100)
          = advanceRotation ⟨0, 0, 0⟩ ⟨1, 0, 0⟩ (min (10 * (1/100)) (3/10)))
    ∧ stepRotation ⟨0, 0, 0⟩ ⟨1/2000, 0, 0⟩ (1/100) = ⟨1/2000, 0, 0⟩ := by
  constructor
  · refine ⟨by decide, ?_⟩
    exact (C5_rotation_eased_step_and_snap ⟨0, 0, 0⟩ ⟨1, 0, 0⟩ (1/100)).1
      (by decide) (by norm_num [advanceRotation, abs_of_nonneg])
  · exact (C5_rotation_eased_step_and_snap ⟨0, 0, 0⟩ ⟨1/2000, 0, 0⟩ (1/100)).2
      (by norm_num [advanceRotation, abs_of_nonneg])

/-- C9 counterexample: at `current = (0,0,0)` and `target = (3/4000,0,0)`
the two differ yet agree to within the `0.001` epsilon on every axis; a
further frame tick (here with `delta = 0`) does change the state — it
snaps it exactly to the target — so "no state change once within epsilon"
fails as stated. -/
theorem C9_counterexample_within_eps_tick_changes_state :
    (|(3/4000 : ℚ) - 0| < rotThreshold ∧ |(0 : ℚ) - 0| < rotThreshold)
    ∧ stepRotation ⟨0, 0, 0⟩ ⟨3/4000, 0, 0⟩ 0 = ⟨3/4000, 0, 0⟩
    ∧ ((⟨3/4000, 0, 0⟩ : V3) ≠ ⟨0, 0, 0⟩) := by
  refine ⟨⟨by norm_num [rotThreshold, abs_of_nonneg], by norm_num [rotThreshold]⟩, ?_,
    by norm_num [V3.mk.injEq]⟩
  norm_num [stepRotation, advanceRotation, rotEaseCap, rotThreshold, min_def,
    abs_of_nonneg]

/-- C9 amended: the animator is idempotent once current equals target
exactly; a frame tick taken from a state within the `0.001` epsilon of
the target (with nonnegative frame delta) sets current exactly to the
target, after which further ticks with the same target produce no state
change. -/
theorem C9_amended_idempotent_after_snap (c t : V3) (delta : ℚ)
    (hδ : 0 ≤ delta) :
    ((|t.x - c.x| ≤ rotThreshold ∧ |t.y - c.y| ≤ rotThreshold
        ∧ |t.z - c.z| ≤ rotThreshold) → stepRotation c t delta = t)
    ∧ stepRotation t t delta = t := by
  constructor
  · intro hclose
    by_cases hguard : c.x ≠ t.x ∨ c.y ≠ t.y ∨ c.z ≠ t.z
    · set e := min (10 * delta) rotEaseCap with he
      have he0 : 0 ≤ e := le_min (by positivity) (by norm_num [rotEaseCap])
      have he1 : e ≤ 1 := le_trans (min_le_right _ _) (by norm_num [rotEaseCap])
      have habs : ∀ a : ℚ, |a| ≤ rotThreshold → |a * (1 - e)| ≤ rotThreshold := by
        intro a ha
        rw [abs_mul, abs_of_nonneg (by linarith : (0:ℚ) ≤ 1 - e)]
        calc |a| * (1 - e) ≤ |a| * 1 :=
              mul_le_mul_of_nonneg_left (by linarith) (abs_nonneg a)
          _ = |a| := mul_one _
          _ ≤ rotThreshold := ha
      have hn : ¬(|t.x - (advanceRotation c t e).x| > rotThreshold
          ∨ |t.y - (advanceRotation c t e).y| > rotThreshold
          ∨ |t.z - (advanceRotation c t e).z| > rotThreshold) := by
        push_neg
        have hx : t.x - (advanceRotation c t e).x = (t.x - c.x) * (1 - e) := by
          simp [advanceRotation]; ring
        have hy : t.y - (advanceRotation c t e).y = (t.y - c.y) * (1 - e) := by
          simp [advanceRotation]; ring
        have hz : t.z - (advanceRotation c t e).z = (t.z - c.z) * (1 - e) := by
          simp [advanceRotation]; ring
        exact ⟨by rw [hx]; exact habs _ hclose.1,
          by rw [hy]; exact habs _ hclose.2.1,
          by rw [hz]; exact habs _ hclose.2.2⟩
      unfold stepRotation
      rw [← he, if_pos hguard, if_neg hn]
    · unfold stepRotation
      rw [if_neg hguard]
      push_neg at hguard
      obtain ⟨hx, hy, hz⟩ := hguard
      cases c; cases t; simp_all
  · unfold stepRotation
    rw [if_neg (by simp)]

/-- Witness for C9's amended theorem: a within-epsilon state snaps to the
target, and the exactly-settled state is a fixed point. -/
theorem C9_amended_idempotent_after_snap_witness :
    (0 : ℚ) ≤ 1/60
    ∧ stepRotation ⟨0, 0, 0⟩ ⟨3/4000, 0, 0⟩ (1/60) = ⟨3/4000, 0, 0⟩
    ∧ stepRotation ⟨3/4000, 0, 0⟩ ⟨3/4000, 0, 0⟩ (1/60) = ⟨3/4000, 0, 0⟩ := by
  have h := C9_amended_idempotent_after_snap ⟨0, 0, 0⟩ ⟨3/4000, 0, 0⟩ (1/60)
    (by norm_num)
  exact ⟨by norm_num,
    h.1 ⟨by norm_num [rotThreshold, abs_of_nonneg], by norm_num [rotThreshold],
      by norm_num [rotThreshold]⟩,
    (C9_amended_idempotent_after_snap ⟨3/4000, 0, 0⟩ ⟨3/4000, 0, 0⟩ (1/60)
      (by norm_num)).2⟩

/-! ## View cube orientation sync (`ViewCube.tsx`, `useFrame`)

Every frame, when the widget is not itself being dragged and the camera
controls ref is mounted, the cube's quaternion is set to
`mainCamera.quaternion` inverted.  `THREE.Quaternion.invert` is the
conjugate (exact inverse for unit quaternions). -/

/-- A quaternion with rational components (embedding of
`THREE.Quaternion`). -/
structure Quat where
  w : ℚ
  x : ℚ
  y : ℚ
  z : ℚ
deriving DecidableEq

/-- Hamilton product, exactly as `THREE.Quaternion.multiplyQuaternions`. -/
def qmul (a b : Quat) : Quat :=
  { x := a.x * b.w + a.w * b.x + a.y * b.z - a.z * b.y
    y := a.y * b.w + a.w * b.y + a.z * b.x - a.x * b.z
    z := a.z * b.w + a.w * b.z + a.x * b.y - a.y * b.x
    w := a.w * b.w - a.x * b.x - a.y * b.y - a.z * b.z }

/-- `THREE.Quaternion.invert` — the conjugate (the rotational inverse of a
unit quaternion). -/
def qinvert (q : Quat) : Quat := ⟨q.w, -q.x, -q.y, -q.z⟩

/-- Squared length `w² + x² + y² + z²`. -/
def qnormSq (q : Quat) : ℚ := q.w^2 + q.x^2 + q.y^2 + q.z^2

/-- The identity quaternion. -/
def qid : Quat := ⟨1, 0, 0, 0⟩

/-- The `useFrame` sync of `ViewCubeContent` (lines 28-34): when the
controls ref is mounted and the cube is not being dragged, the cube
quaternion becomes `invert(cameraQuat)`; otherwise it is left unchanged. -/
def useFrameSync (refMounted isDragging : Bool) (cubeQuat camQuat : Quat) : Quat :=
  if refMounted = true ∧ isDragging = false then qinvert camQuat else cubeQuat

/-- C6: whenever the view cube is not mid-drag (and the camera ref is
mounted), the frame tick sets the cube's quaternion to the exact inverse
of the camera's quaternion, and for a unit camera quaternion the
round-trip product `cubeQuat * cameraQuat` is exactly the identity. -/
theorem C6_viewcube_inverse_sync (cubeQuat camQuat : Quat)
    (hq : qnormSq camQuat = 1) :
    useFrameSync true false cubeQuat camQuat = qinvert camQuat
    ∧ qmul (useFrameSync true false cubeQuat camQuat) camQuat = qid
    ∧ qmul camQuat (useFrameSync true false cubeQuat camQuat) = qid := by
  have hsync : useFrameSync true false cubeQuat camQuat = qinvert camQuat := rfl
  refine ⟨hsync, ?_, ?_⟩ <;>
    · rw [hsync]
      obtain ⟨w, x, y, z⟩ := camQuat
      have hns : w^2 + x^2 + y^2 + z^2 = 1 := hq
      simp only [qmul, qinvert, qid, Quat.mk.injEq]
      refine ⟨by linear_combination hns, by ring, by ring, by ring⟩

/-- Witness for C6 at the unit quaternion `(3/5, 4/5, 0, 0)`. -/
theorem C6_viewcube_inverse_sync_witness :
    qnormSq ⟨3/5, 4/5, 0, 0⟩ = 1
    ∧ useFrameSync true false qid ⟨3/5, 4/5, 0, 0⟩ = qinvert ⟨3/5, 4/5, 0, 0⟩
    ∧ qmul (useFrameSync true false qid ⟨3/5, 4/5, 0, 0⟩) ⟨3/5, 4/5, 0, 0⟩ = qid := by
  have h := C6_viewcube_inverse_sync qid ⟨3/5, 4/5, 0, 0⟩
    (by norm_num [qnormSq])
  exact ⟨by norm_num [qnormSq], h.1, h.2.1⟩

/-! ## Inertial damping (`ViewCube.tsx`, `startInertialDamping` / `onDragEnd`)

On release, if either component of the last drag delta exceeds `0.5`, the
damping loop starts with that delta as velocity.  Each tick multiplies the
velocity by `0.92`; when both components drop below `0.05` in magnitude
the loop stops, clearing the velocity to zero. -/

/-- `dampingFactor = 0.92`. -/
def dampingFactor : ℚ := 23/25

/-- `minVelocity = 0.05`. -/
def minVelocity : ℚ := 1/20

/-- The damping-loop state: the velocity vector and the
`dampingActive` flag of `dragStateRef`. -/
structure DampState where
  velX : ℚ
  velY : ℚ
  dampingActive : Bool
deriving DecidableEq

/-- One tick of the `animate` closure in `startInertialDamping`
(lines 193-241): a no-op when damping is inactive; otherwise the velocity
is multiplied by `dampingFactor`, and if both components are now below
`minVelocity` in magnitude the loop stops and clears the velocity to
zero, else the decayed velocity is kept (and the rotation applied). -/
def dampTick (s : DampState) : DampState :=
  if s.dampingActive = false then s
  else
    if |s.velX * dampingFactor| < minVelocity ∧ |s.velY * dampingFactor| < minVelocity
    then ⟨0, 0, false⟩
    else ⟨s.velX * dampingFactor, s.velY * dampingFactor, true⟩

/-- The damping-start decision of `onDragEnd` (lines 159-165): damping
starts with the last delta as velocity when either component exceeds
`0.5` in magnitude. -/
def onDragEndDamping (lastDeltaX lastDeltaY : ℚ) : Option DampState :=
  if |lastDeltaX| > 1/2 ∨ |lastDeltaY| > 1/2
  then some ⟨lastDeltaX, lastDeltaY, true⟩
  else none

lemma dampTick_stopped : dampTick ⟨0, 0, false⟩ = ⟨0, 0, false⟩ := rfl

lemma dampTick_iterate_shape (vx vy : ℚ) (n : ℕ) :
    dampTick^[n] ⟨vx, vy, true⟩ = ⟨0, 0, false⟩
    ∨ dampTick^[n] ⟨vx, vy, true⟩ = ⟨vx * dampingFactor ^ n, vy * dampingFactor ^ n, true⟩ := by
  induction n with
  | zero => right; simp
  | succ n ih =>
      rw [Function.iterate_succ_apply']
      rcases ih with h | h
      · rw [h]; left; exact dampTick_stopped
      · rw [h]
        unfold dampTick
        simp only [Bool.true_eq_false, if_false]
        by_cases hstop : |vx * dampingFactor ^ n * dampingFactor| < minVelocity
            ∧ |vy * dampingFactor ^ n * dampingFactor| < minVelocity
        · left; rw [if_pos hstop]
        · right
          rw [if_neg hstop]
          have hx : vx * dampingFactor ^ n * dampingFactor = vx * dampingFactor ^ (n + 1) := by
            ring
          have hy : vy * dampingFactor ^ n * dampingFactor = vy * dampingFactor ^ (n + 1) := by
            ring
          rw [hx, hy]

lemma dampingFactor_pow_small (M : ℚ) (hM : 0 < M) :
    ∃ n : ℕ, M * dampingFactor ^ n < minVelocity := by
  obtain ⟨n, hn⟩ := exists_pow_lt_of_lt_one (x := minVelocity / M) (y := dampingFactor)
    (div_pos (by norm_num [minVelocity]) hM) (by norm_num [dampingFactor])
  refine ⟨n, ?_⟩
  have h2 : dampingFactor ^ n * M < (minVelocity / M) * M :=
    mul_lt_mul_of_pos_right hn hM
  have h3 : (minVelocity / M) * M = minVelocity := div_mul_cancel₀ _ (ne_of_gt hM)
  calc M * dampingFactor ^ n = dampingFactor ^ n * M := by ring
    _ < minVelocity := by rwa [h3] at h2

/-- C7: when a view-cube drag is released with velocity exceeding the
start threshold `0.5`, damping starts with that velocity; every active
tick that does not yet stop multiplies both velocity components by the
damping factor `0.92`; and for any such starting velocity the loop
reaches, after finitely many ticks, the stopped state in which damping is
inactive and the velocity has been cleared to exactly zero (the stop
happening as soon as both components fall below the `0.05` threshold). -/
theorem C7_damping_decay_terminates (vx vy : ℚ)
    (hstart : |vx| > 1/2 ∨ |vy| > 1/2) :
    onDragEndDamping vx vy = some ⟨vx, vy, true⟩
    ∧ (∀ s : DampState, s.dampingActive = true →
        ¬(|s.velX * dampingFactor| < minVelocity ∧ |s.velY * dampingFactor| < minVelocity) →
        dampTick s = ⟨s.velX * dampingFactor, s.velY * dampingFactor, true⟩)
    ∧ (∃ n : ℕ, dampTick^[n] ⟨vx, vy, true⟩ = ⟨0, 0, false⟩) := by
  refine ⟨by unfold onDragEndDamping; rw [if_pos hstart], ?_, ?_⟩
  · intro s hact hnostop
    unfold dampTick
    rw [if_neg (by simp [hact]), if_neg hnostop]
  · have hd0 : (0:ℚ) < dampingFactor := by norm_num [dampingFactor]
    have hd1 : dampingFactor < 1 := by norm_num [dampingFactor]
    set M : ℚ := |vx| + |vy| + 1 with hM
    have hMpos : 0 < M := by positivity
    obtain ⟨n, hn⟩ := dampingFactor_pow_small M hMpos
    have hpow : 0 < dampingFactor ^ n := pow_pos hd0 n
    have hbx : |vx * dampingFactor ^ n * dampingFactor| < minVelocity := by
      rw [abs_mul, abs_mul, abs_of_pos hpow, abs_of_pos hd0]
      have h1 : |vx| * dampingFactor ^ n ≤ M * dampingFactor ^ n := by
        have : |vx| ≤ M := by rw [hM]; linarith [abs_nonneg vy]
        exact mul_le_mul_of_nonneg_right this hpow.le
      have h2 : |vx| * dampingFactor ^ n * dampingFactor ≤ M * dampingFactor ^ n * 1 := by
        have := mul_le_mul_of_nonneg_right h1 hd0.le
        nlinarith [mul_nonneg (abs_nonneg vx) hpow.le]
      calc |vx| * dampingFactor ^ n * dampingFactor
          ≤ M * dampingFactor ^ n * 1 := h2
        _ = M * dampingFactor ^ n := by ring
        _ < minVelocity := hn
    have hby : |vy * dampingFactor ^ n * dampingFactor| < minVelocity := by
      rw [abs_mul, abs_mul, abs_of_pos hpow, abs_of_pos hd0]
      have h1 : |vy| * dampingFactor ^ n ≤ M * dampingFactor ^ n := by
        have : |vy| ≤ M := by rw [hM]; linarith [abs_nonneg vx]
        exact mul_le_mul_of_nonneg_right this hpow.le
      have h2 : |vy| * dampingFactor ^ n * dampingFactor ≤ M * dampingFactor ^ n * 1 := by
        have := mul_le_mul_of_nonneg_right h1 hd0.le
        nlinarith [mul_nonneg (abs_nonneg vy) hpow.le]
      calc |vy| * dampingFactor ^ n * dampingFactor
          ≤ M * dampingFactor ^ n * 1 := h2
        _ = M * dampingFactor ^ n := by ring
        _ < minVelocity := hn
    refine ⟨n + 1, ?_⟩
    rw [Function.iterate_succ_apply']
    rcases dampTick_iterate_shape vx vy n with h | h
    · rw [h]; exact dampTick_stopped
    · rw [h]
      unfold dampTick
      simp only [Bool.true_eq_false, if_false]
      rw [if_pos ⟨hbx, hby⟩]

/-- Witness for C7 at the spec's scenario: release velocity
`(20, 0)` px/tick exceeds the start threshold and the loop reaches the
cleared stopped state. -/
theorem C7_damping_decay_terminates_witness :
    (|(20:ℚ)| > 1/2 ∨ |(0:ℚ)| > 1/2)
    ∧ onDragEndDamping 20 0 = some ⟨20, 0, true⟩
    ∧ (∃ n : ℕ, dampTick^[n] ⟨20, 0, true⟩ = ⟨0, 0, false⟩) := by
  have h := C7_damping_decay_terminates 20 0
    (Or.inl (by norm_num [abs_of_nonneg]))
  exact ⟨Or.inl (by norm_num [abs_of_nonneg]), h.1, h.2.2⟩

/-! ## Height adjustment (`Controls` panel, `src/unnamed/part_003`)

A click moves the model up or down by `0.025`; the long-press animation
moves it by `0.15 * deltaTime` per frame.  Both clamp the downward move
at the ground `y = 0` and the upward move only increases `y`. -/

/-- The `'up' | 'down'` direction argument of the height controls. -/
inductive HeightDirection where
  | up
  | down
deriving DecidableEq

/-- `adjustHeight` (`src/unnamed/part_003` lines 113-125): one click moves
`y` up by `step = 0.025`, or down by the same step clamped at the ground
(`Math.max(0, y - step)`); X and Z are untouched. -/
def adjustHeight (direction : HeightDirection) (pos : V3) : V3 :=
  match direction with
  | .up => ⟨pos.x, pos.y + 1/40, pos.z⟩
  | .down => ⟨pos.x, max 0 (pos.y - 1/40), pos.z⟩

/-- One frame of `animateHeight` (`src/unnamed/part_003` lines 86-111):
the step is `speed * deltaTime` with `speed = 0.15` units per second;
upward adds the step, downward subtracts it clamped at the ground. -/
def animateHeightTick (deltaTime : ℚ) (direction : HeightDirection) (pos : V3) : V3 :=
  match direction with
  | .up => ⟨pos.x, pos.y + (3/20) * deltaTime, pos.z⟩
  | .down => ⟨pos.x, max 0 (pos.y - (3/20) * deltaTime), pos.z⟩

/-- C8: the invariant `position.y ≥ 0` is preserved by every
height-adjustment operation — both the per-click `adjustHeight` step and
the long-press per-frame `animateHeight` step (with nonnegative elapsed
time) keep `y ≥ 0`, because the down branch clamps `y` at `0` and the up
branch only increases `y`. -/
theorem C8_height_invariant (pos : V3) (direction : HeightDirection)
    (deltaTime : ℚ) (hdt : 0 ≤ deltaTime) (hy : 0 ≤ pos.y) :
    0 ≤ (adjustHeight direction pos).y
    ∧ 0 ≤ (animateHeightTick deltaTime direction pos).y
    ∧ pos.y ≤ (adjustHeight HeightDirection.up pos).y
    ∧ pos.y ≤ (animateHeightTick deltaTime HeightDirection.up pos).y := by
  have hprod : (0:ℚ) ≤ (3/20) * deltaTime :=
    mul_nonneg (by norm_num) hdt
  refine ⟨?_, ?_, ?_, ?_⟩
  · cases direction with
    | up => show (0:ℚ) ≤ pos.y + 1/40; linarith
    | down => exact le_max_left _ _
  · cases direction with
    | up => show (0:ℚ) ≤ pos.y + (3/20) * deltaTime; linarith
    | down => exact le_max_left _ _
  · show pos.y ≤ pos.y + 1/40
    linarith
  · show pos.y ≤ pos.y + (3/20) * deltaTime
    linarith

/-- Witness for C8 at `y = 1/100`, downward click and a 16ms frame. -/
theorem C8_height_invariant_witness :
    ((0:ℚ) ≤ 2/125 ∧ (0:ℚ) ≤ 1/100)
    ∧ 0 ≤ (adjustHeight HeightDirection.down ⟨0, 1/100, 0⟩).y
    ∧ 0 ≤ (animateHeightTick (2/125) HeightDirection.down ⟨0, 1/100, 0⟩).y := by
  have h := C8_height_invariant ⟨0, 1/100, 0⟩ HeightDirection.down (2/125)
    (by norm_num) (by norm_num)
  exact ⟨⟨by norm_num, by norm_num⟩, h.1, h.2.1⟩

/-! ## Active-face selection (`ViewCube.tsx`, `useFrame`, lines 41-62)

Each frame the camera-to-target direction is classified by its
dominant-magnitude axis with strict comparisons:
`absY > absX && absY > absZ` picks the Y faces, else `absX > absZ` picks
the X faces, else the Z faces.  The classification only compares absolute
values and signs, so it is stated on the (un-normalized) direction
vector — normalization scales all components by the same positive factor
and changes neither comparisons nor signs. -/

/-- The face classification of the `useFrame` callback: strict
dominant-axis comparison on the camera-to-target direction, Y faces
`'顶'/'底'` first, then X faces `'右'/'左'`, else Z faces `'前'/'后'`. -/
def selectActiveFace (dir : V3) : String :=
  if |dir.y| > |dir.x| ∧ |dir.y| > |dir.z| then
    if dir.y > 0 then "顶" else "底"
  else if |dir.x| > |dir.z| then
    if dir.x > 0 then "右" else "左"
  else
    if dir.z > 0 then "前" else "后"

/-- The initial value of the `activeFace` state
(`useState<string>('前')`). -/
def defaultActiveFace : String := "前"

/-- C10: the dominant-axis comparison uses strict inequalities, so a
direction with `|y| = |x|` or `|y| = |z|` never selects the Y faces
(`'顶'`/`'底'`); with `|x| = |z|` and Y not strictly dominant, a Z face
(`'前'` or `'后'`) is selected; distinct directions with equal-magnitude
components can share a label — `(1,1,1)` and `(-1,1,1)` both select
`'前'` — and the default label is `'前'`. -/
theorem C10_face_selection_tie_breaks (v : V3) :
    (|v.y| = |v.x| → selectActiveFace v ≠ "顶" ∧ selectActiveFace v ≠ "底")
    ∧ (|v.y| = |v.z| → selectActiveFace v ≠ "顶" ∧ selectActiveFace v ≠ "底")
    ∧ (|v.x| = |v.z| → ¬(|v.y| > |v.x| ∧ |v.y| > |v.z|) →
        selectActiveFace v = "前" ∨ selectActiveFace v = "后")
    ∧ selectActiveFace ⟨1, 1, 1⟩ = "前"
    ∧ selectActiveFace ⟨-1, 1, 1⟩ = "前"
    ∧ ((⟨1, 1, 1⟩ : V3) ≠ ⟨-1, 1, 1⟩)
    ∧ defaultActiveFace = "前" := by
  have hface : ∀ w : V3, ¬(|w.y| > |w.x| ∧ |w.y| > |w.z|) →
      selectActiveFace w ≠ "顶" ∧ selectActiveFace w ≠ "底" := by
    intro w hw
    unfold selectActiveFace
    rw [if_neg hw]
    constructor <;> · split_ifs <;> decide
  refine ⟨?_, ?_, ?_, ?_, ?_, ?_, rfl⟩
  · intro h
    exact hface v (fun hc => absurd hc.1 (by rw [h]; exact lt_irrefl _))
  · intro h
    exact hface v (fun hc => absurd hc.2 (by rw [h]; exact lt_irrefl _))
  · intro hxz hnoty
    unfold selectActiveFace
    rw [if_neg hnoty, if_neg (by rw [hxz]; exact lt_irrefl _)]
    split_ifs
    · exact Or.inl rfl
    · exact Or.inr rfl
  · show selectActiveFace ⟨1, 1, 1⟩ = "前"
    unfold selectActiveFace
    norm_num
  · show selectActiveFace ⟨-1, 1, 1⟩ = "前"
    unfold selectActiveFace
    norm_num
  · intro h
    have := congrArg V3.x h
    norm_num at this

/-- Witness for C10 at `v = (1, 1, 1)`: all equal-magnitude hypotheses are
discharged at this concrete direction. -/
theorem C10_face_selection_tie_breaks_witness :
    (|(1:ℚ)| = |(1:ℚ)| ∧ selectActiveFace ⟨1, 1, 1⟩ ≠ "顶")
    ∧ (selectActiveFace ⟨1, 1, 1⟩ = "前" ∨ selectActiveFace ⟨1, 1, 1⟩ = "后")
    ∧ defaultActiveFace = "前" := by
  have h := C10_face_selection_tie_breaks ⟨1, 1, 1⟩
  exact ⟨⟨rfl, (h.1 rfl).1⟩,
    h.2.2.1 rfl (by norm_num),
    h.2.2.2.2.2.2⟩

end Scene
